import Mathlib

/-!
Verification development for the py_rw5 repository: a parser for Carlson
RW5 survey logs (py_rw5/parse) and a re-encoder to the STAR*NET .dat
format (py_rw5/convert).  Python strings are modelled as lists of
characters, Python int as Int, Python Decimal as a scaled integer, and
the float seconds of the DMS angle class as rationals.  All definitions
are transcribed from the Python source; helper functions model the
Python builtins they stand for (find, slice, replace, strip, zfill,
rjust, ljust, int(), Decimal(), round()).
-/

/-- The ten decimal digit characters, used to describe the output of the
integer renderers. -/
def digitChars : List Char := ['0', '1', '2', '3', '4', '5', '6', '7', '8', '9']

/-- Character of a single decimal digit. -/
def digitChar (d : Nat) : Char :=
  if d = 1 then '1' else if d = 2 then '2' else if d = 3 then '3'
  else if d = 4 then '4' else if d = 5 then '5' else if d = 6 then '6'
  else if d = 7 then '7' else if d = 8 then '8' else if d = 9 then '9' else '0'

/-- Digits of a natural number, most significant first; empty for 0.
Fuel-based so that it reduces in the kernel. -/
def natDigitsAux : Nat → Nat → List Char
  | 0, _ => []
  | fuel + 1, n =>
      if n = 0 then [] else natDigitsAux fuel (n / 10) ++ [digitChar (n % 10)]

/-- Decimal rendering of a natural number (models Python str on a non-negative
int). -/
def natStr (n : Nat) : List Char :=
  if n = 0 then ['0'] else natDigitsAux (n + 1) n

/-- Decimal rendering of an integer (models Python str on an int). -/
def intStr (i : Int) : List Char :=
  if i < 0 then '-' :: natStr i.natAbs else natStr i.toNat

/-- Python whitespace characters stripped by str.strip(). -/
def isPySpace (c : Char) : Bool :=
  c = ' ' || c = '\t' || c = '\n' || c = '\x0d' || c = '\x0b' || c = '\x0c'

/-- Models Python str.strip(): drop whitespace from both ends. -/
def pyStrip (l : List Char) : List Char :=
  ((l.dropWhile isPySpace).reverse.dropWhile isPySpace).reverse

/-- Whether a string begins with a sign character (used by the zfill
model, which keeps a leading sign in front of its padding). -/
def pySigned : List Char → Bool
  | c :: _ => c = '-' || c = '+'
  | [] => false

/-- Models Python str.zfill(width): pad with zeros on the left, inserted
after a leading sign when one is present. -/
def pyZfill (width : Nat) (l : List Char) : List Char :=
  if l.length < width then
    if pySigned l then l.take 1 ++ List.replicate (width - l.length) '0' ++ l.drop 1
    else List.replicate (width - l.length) '0' ++ l
  else l

/-- Models Python str.rjust(width): pad with spaces on the left. -/
def pyRjust (width : Nat) (l : List Char) : List Char :=
  if l.length < width then List.replicate (width - l.length) ' ' ++ l else l

/-- Models Python str.ljust(width) (and ljust(width, c) via the pad
argument): pad on the right. -/
def pyLjustWith (pad : Char) (width : Nat) (l : List Char) : List Char :=
  if l.length < width then l ++ List.replicate (width - l.length) pad else l

/-- Models Python str.ljust(width) with the default space padding. -/
def pyLjust (width : Nat) (l : List Char) : List Char := pyLjustWith ' ' width l

/-- Split at the first occurrence of a character: models
s.split(c, maxsplit=1) when the separator occurs, returning the parts
before and after it; none when the separator is absent. -/
def splitOnceL (c : Char) : List Char → Option (List Char × List Char)
  | [] => none
  | x :: xs =>
      if x = c then some ([], xs)
      else (splitOnceL c xs).map (fun p => (x :: p.1, p.2))

/-- Models Python s.split(sep)[0] for a one-character separator: the part
before the first occurrence, or the whole string. -/
def headSplit (c : Char) (l : List Char) : List Char := l.takeWhile (· ≠ c)

/-- Search step for pyFindL: first index at or after i where sub occurs,
-1 when there is none.  Fuel-based for kernel reduction. -/
def pyFindAux (l sub : List Char) : Nat → Nat → Int
  | 0, _ => -1
  | fuel + 1, i =>
      if i + sub.length > l.length then -1
      else if sub.isPrefixOf (l.drop i) then (i : Int)
      else pyFindAux l sub fuel (i + 1)

/-- Models Python str.find(sub, start): the lowest index at or after
start where sub occurs, with Python's normalization of a negative or
overlarge start; -1 when sub does not occur. -/
def pyFindL (l sub : List Char) (start : Int) : Int :=
  let n : Int := (l.length : Int)
  let s : Nat := (if start < 0 then max 0 (n + start) else min start n).toNat
  pyFindAux l sub (l.length + 1) s

/-- Models the Python membership test sub in s. -/
def containsSub (l sub : List Char) : Bool := pyFindL l sub 0 ≠ -1

/-- Models the Python slice s[i:j] with step 1, including the handling of
negative indices and clamping. -/
def pySlice (l : List Char) (i j : Int) : List Char :=
  let n : Int := (l.length : Int)
  let i' : Nat := (if i < 0 then max 0 (n + i) else min i n).toNat
  let j' : Nat := (if j < 0 then max 0 (n + j) else min j n).toNat
  (l.drop i').take (j' - i')

/-- Models the Python slice s[i:] with step 1. -/
def pySliceFrom (l : List Char) (i : Int) : List Char :=
  pySlice l i (l.length : Int)

/-- Models Python str.removeprefix for a two-character marker: drops the
marker when it leads the string, otherwise leaves the string unchanged. -/
def dropMarker (marker l : List Char) : List Char :=
  if marker.isPrefixOf l then l.drop marker.length else l

/-- Step for pyReplace with an empty pattern: Python interleaves the
replacement before every character and at the end. -/
def replaceEmptyPat (rep : List Char) : List Char → List Char
  | [] => rep
  | c :: t => rep ++ c :: replaceEmptyPat rep t

/-- Step for pyReplace with a non-empty pattern, fuel-based: replace
non-overlapping occurrences left to right. -/
def pyReplaceAux (pat rep : List Char) : Nat → List Char → List Char
  | 0, l => l
  | fuel + 1, l =>
      match l with
      | [] => []
      | c :: t =>
          if pat.isPrefixOf l then rep ++ pyReplaceAux pat rep fuel (l.drop pat.length)
          else c :: pyReplaceAux pat rep fuel t

/-- Models Python str.replace(old, new): every non-overlapping occurrence
of old is replaced by new, scanning left to right; with an empty old the
replacement is interleaved at every position. -/
def pyReplace (l pat rep : List Char) : List Char :=
  if pat = [] then replaceEmptyPat rep l
  else pyReplaceAux pat rep (l.length + 1) l

/-- Digit value of a character, none for a non-digit.  Used for the model
of int() and Decimal(). -/
def digitVal (c : Char) : Option Nat :=
  if c = '0' then some 0 else if c = '1' then some 1 else if c = '2' then some 2
  else if c = '3' then some 3 else if c = '4' then some 4 else if c = '5' then some 5
  else if c = '6' then some 6 else if c = '7' then some 7 else if c = '8' then some 8
  else if c = '9' then some 9 else none

/-- Accumulator loop for digitsToNat. -/
def digitsToNatGo : List Char → Nat → Option Nat
  | [], acc => some acc
  | c :: t, acc =>
      match digitVal c with
      | none => none
      | some d => digitsToNatGo t (acc * 10 + d)

/-- Parse a non-empty all-digit string as a natural number; none
otherwise. -/
def digitsToNat : List Char → Option Nat
  | [] => none
  | l => digitsToNatGo l 0

/-- Models Python int(s) on the plain decimal strings that occur in RW5
fields: an optional sign followed by one or more digits; any other shape
fails (the Python call raises ValueError). -/
def strToInt (l : List Char) : Option Int :=
  match l with
  | [] => none
  | c :: rest =>
      if c = '-' then (digitsToNat rest).map (fun n => -(n : Int))
      else if c = '+' then (digitsToNat rest).map (fun n => (n : Int))
      else (digitsToNat l).map (fun n => (n : Int))

/-- A Python decimal.Decimal value: mant scaled by 10^(-scale).  The
RW5 fields only use plain finite decimals, which this captures exactly. -/
structure Dec where
  mant : Int
  scale : Nat
deriving DecidableEq

/-- Rational value of a Dec. -/
def Dec.toRat (d : Dec) : ℚ := (d.mant : ℚ) / ((10 : ℚ) ^ d.scale)

/-- Parse the fractional part continuation of a decimal literal. -/
def decParseFrac (mant : Int) (sign : Bool) : List Char → Nat → Option Dec
  | [], scale => some ⟨if sign then -mant else mant, scale⟩
  | c :: t, scale =>
      match digitVal c with
      | none => none
      | some d => decParseFrac (mant * 10 + d) sign t (scale + 1)

/-- Parse the integer digits of a decimal literal, then optionally a
fractional part. -/
def decParseInt (mant : Int) (sign : Bool) (seen : Bool) : List Char → Option Dec
  | [] => if seen then some ⟨if sign then -mant else mant, 0⟩ else none
  | '.' :: t =>
      if seen || t ≠ [] then decParseFrac mant sign t 0 else none
  | c :: t =>
      match digitVal c with
      | none => none
      | some d => decParseInt (mant * 10 + d) sign true t

/-- Models Python Decimal(s) on the plain decimal literals appearing in
RW5 files: optional sign, digits, optional fractional part.  Any other
shape fails (the Python constructor raises InvalidOperation). -/
def decOfStr : List Char → Option Dec
  | '-' :: rest => decParseInt 0 true false rest
  | '+' :: rest => decParseInt 0 false false rest
  | l => decParseInt 0 false false l

/-- Half-even (banker's) rounding of a / b for b > 0, on naturals. -/
def halfEvenDiv (a b : Nat) : Nat :=
  let q := a / b
  let r := a % b
  if 2 * r < b then q
  else if 2 * r > b then q + 1
  else if q % 2 = 0 then q else q + 1

/-- Models Python round(d, n) on a Decimal: quantize to n fractional
digits with ROUND_HALF_EVEN; when the value already has at most n
fractional digits it is padded exactly (Python keeps the exponent, so
trailing zeros appear in the rendering). -/
def decRound (n : Nat) (d : Dec) : Dec :=
  if d.scale ≤ n then ⟨d.mant * (10 : Int) ^ (n - d.scale), n⟩
  else
    let p := (10 : Nat) ^ (d.scale - n)
    let q := halfEvenDiv d.mant.natAbs p
    ⟨if d.mant < 0 then -(q : Int) else (q : Int), n⟩

/-- Models Python str on a Decimal with exponent -scale: sign, integer
digits, and exactly scale fractional digits (none and no point when the
scale is zero). -/
def decStr (d : Dec) : List Char :=
  let sign : List Char := if d.mant < 0 then ['-'] else []
  let digs := pyZfill (d.scale + 1) (natStr d.mant.natAbs)
  if d.scale = 0 then sign ++ digs
  else sign ++ digs.take (digs.length - d.scale) ++ '.' :: digs.drop (digs.length - d.scale)

/-- Floor of a rational, computed on the numerator and denominator so
that it reduces in the kernel. -/
def ratFloor (q : ℚ) : Int := Int.fdiv q.num (q.den : Int)

/-- Ceiling of a rational. -/
def ratCeil (q : ℚ) : Int := -ratFloor (-q)

/-- Absolute value of a rational, by cases so that it reduces in the
kernel. -/
def ratAbs (q : ℚ) : ℚ := if q < 0 then -q else q

/-- Python truthiness of an optional string: None and the empty string
are falsy. -/
def pyTruthy : Option (List Char) → Bool
  | none => false
  | some s => !s.isEmpty

/-- Truncation toward zero: models Python int() applied to a number. -/
def pyTrunc (q : ℚ) : Int := if 0 ≤ q then ratFloor q else ratCeil q

/-- Models Python round() to an integer: nearest, ties to even. -/
def pyRoundInt (q : ℚ) : Int :=
  let f := ratFloor q
  let r := q - (f : ℚ)
  if r < 1 / 2 then f else if r > 1 / 2 then f + 1 else if f % 2 = 0 then f else f + 1

/-- Models CPython repr of float(q) for the non-negative seconds values
the code formats: at most two exact fractional digits (denominator
dividing 100), where the shortest round-tripping decimal is the plain
rendering with trailing fractional zeros dropped but at least one
fractional digit kept.  Values outside that domain do not occur in the
theorems below.  The sign and integer digits: -/
def pyFloatPre (q : ℚ) : List Char :=
  (if q < 0 then ['-'] else []) ++ natStr ((ratFloor (ratAbs q)).toNat)

/-- Fractional digits of the float repr: trailing zero dropped, at least
one digit. -/
def pyFloatFrac (q : ℚ) : List Char :=
  let f2 := (ratFloor ((ratAbs q - (((ratFloor (ratAbs q)).toNat : Nat) : ℚ)) * 100)).toNat
  if f2 = 0 then ['0']
  else if f2 % 10 = 0 then natStr (f2 / 10)
  else pyZfill 2 (natStr f2)

/-- The full float repr: sign and integer digits, the point, then the
fractional digits. -/
def pyFloatRepr (q : ℚ) : List Char :=
  pyFloatPre q ++ '.' :: pyFloatFrac q

/-- The DMS angle class of py_rw5/parse/dms.py: integer degrees and
minutes, float seconds (modelled as a rational). -/
structure DMS where
  degrees : Int
  minutes : Int
  seconds : ℚ
deriving DecidableEq

/-- DMS.from_str: parse the packed decimal string DDD.MMSS, reading the
digits before the point as degrees, then two fractional digits as
minutes and the next up to two as seconds; any int() failure (including a
missing point, which in Python raises on unpacking) yields none. -/
def dmsFromStr (s : List Char) : Option DMS :=
  match splitOnceL '.' s with
  | none => none
  | some (part1, rest) =>
      match strToInt part1 with
      | none => none
      | some d =>
          match strToInt (rest.take 2) with
          | none => none
          | some m =>
              match strToInt ((rest.drop 2).take 2) with
              | none => none
              | some sec => some ⟨d, m, (sec : ℚ)⟩

/-- DMS.__str__: degrees, zero-padded minutes, and the seconds split on
the decimal point of their float repr, zero-padded to two digits on the
left and right-padded to two digits on the right. -/
def dmsStr (a : DMS) : List Char :=
  let rep := pyFloatRepr a.seconds
  let parts := (splitOnceL '.' rep).getD (rep, [])
  let s1 := pyZfill 2 parts.1
  let s2 := pyLjustWith '0' 2 parts.2
  intStr a.degrees ++ '-' :: pyZfill 2 (intStr a.minutes) ++ '-' :: s1 ++ '.' :: s2

/-- DMS._decimal_degrees / the dd property. -/
def dmsDD (a : DMS) : ℚ := (a.degrees : ℚ) + (a.minutes : ℚ) / 60 + a.seconds / 3600

/-- DMS.from_degrees: truncate to degrees, truncate the remainder to
minutes, and round the remaining seconds to the nearest integer. -/
def dmsFromDegrees (q : ℚ) : DMS :=
  let d := pyTrunc q
  let m := pyTrunc ((q - (d : ℚ)) * 60)
  let s := pyRoundInt ((q - (d : ℚ) - (m : ℚ) / 60) * 3600)
  ⟨d, m, (s : ℚ)⟩

/-- DMS.__sub__: difference of decimal degrees, wrapped by +360 when
negative, converted back through from_degrees. -/
def dmsSub (a b : DMS) : DMS :=
  let diff := dmsDD a - dmsDD b
  let diff := if diff < 0 then diff + 360 else diff
  dmsFromDegrees diff

/-- DMS.__eq__: degrees and minutes exact, seconds within 1e-5. -/
def dmsEq (a b : DMS) : Prop :=
  a.degrees = b.degrees ∧ a.minutes = b.minutes ∧ |a.seconds - b.seconds| < 1 / 100000

instance (a b : DMS) : Decidable (dmsEq a b) := by
  unfold dmsEq; infer_instance

/-- The two-character comment marker. -/
def ddTok : List Char := "--".data

def tokOP : List Char := "OP".data
def tokBP : List Char := "BP".data
def tokBS : List Char := "BS".data
def tokBC : List Char := "BC".data
def tokNM : List Char := "NM".data
def tokDT : List Char := "DT".data
def tokTM : List Char := "TM".data
def tokHI : List Char := "HI".data
def tokHR : List Char := "HR".data
def tokAD : List Char := "AD".data
def tokUN : List Char := "UN".data
def tokSF : List Char := "SF".data
def tokEC : List Char := "EC".data
def tokAU : List Char := "AU".data
def tokEO : List Char := "EO".data
def tokNsp : List Char := "N ".data
def tokEsp : List Char := "E ".data
def tokEL : List Char := "EL".data
def tokAR : List Char := "AR".data
def tokZE : List Char := "ZE".data
def tokSD : List Char := "SD".data
def tokPN : List Char := "PN".data
def tokFP : List Char := "FP".data
def tokLA : List Char := "LA".data
def tokLN : List Char := "LN".data
def tokJB : List Char := "JB".data
def tokBK : List Char := "BK".data
def tokLS : List Char := "LS".data
def tokMO : List Char := "MO".data
def tokOC : List Char := "OC".data
def tokOF : List Char := "OF".data
def tokSP : List Char := "SP".data
def tokSS : List Char := "SS".data
def tokGPS : List Char := "GPS".data
def tokResection : List Char := "--Resection:".data
def tokReading : List Char := "--Reading".data
def tokReadingSp : List Char := "--Reading ".data
def tokValid : List Char := "--Valid Readings:".data
def tokHRMSpre : List Char := "--HRMS".data
def tokHRMSAvg : List Char := "--HRMS Avg:".data
def tokVRMSAvg : List Char := "--VRMS Avg:".data
def tokAGEAvg : List Char := "--AGE Avg:".data
def tokHRMSc : List Char := "HRMS:".data
def tokVRMSc : List Char := "VRMS:".data
def tokAGEc : List Char := "AGE:".data
def tokSTATUS : List Char := "STATUS:".data
def tokFIXED : List Char := "FIXED".data

/-- The point-name substitution marker, the comment marker followed by
the default substitution token CP/ (parser.py keeps both as fields; the
defaults are the only values the repository ever uses). -/
def tokCP : List Char := "CP/".data

/-- The full marker --CP/ whose presence triggers point-name
substitution. -/
def substMarker : List Char := "--CP/".data

/-- Rw5Record.get_param of record.py: locate the field prefix, read up
to the next comma (or end of line), strip, and cut at an embedded
comment marker.  When the prefix is absent Python's find returns -1 and
the same slicing code runs on that index; this transcription reproduces
that behavior exactly. -/
def getParam (line pre : List Char) : List Char :=
  let f := pyFindL line pre 0
  let start := f + (pre.length : Int)
  let e0 := pyFindL line [','] f
  let e : Int := if e0 = -1 then (line.length : Int) else e0
  let param := pyStrip (pySlice line start e)
  if containsSub param ddTok then pySlice param 0 (pyFindL param ddTok 0)
  else param

/-- Rw5Record.get_param_optional: none when the prefix does not occur in
the line. -/
def getParamOpt (line pre : List Char) : Option (List Char) :=
  if containsSub line pre then some (getParam line pre) else none

/-- Rw5Record.get_comment: find the comment marker (skipping a leading
marker once, since note lines may carry their own comments) and return
the text after it, or none. -/
def getComment (line : List Char) : Option (List Char) :=
  let ci0 := pyFindL line ddTok 0
  let p : List Char × Int :=
    if ci0 = 0 then
      let l1 := dropMarker ddTok line
      (l1, pyFindL l1 ddTok 0)
    else (line, ci0)
  if p.2 = -1 then none
  else some (dropMarker ddTok (pySliceFrom p.1 p.2))

/-- MachineState of machine_state.py. -/
structure MachineState where
  instrument_height : Option Dec := none
  rod_height : Option Dec := none
  backsight_angle : Option DMS := none
  backsight_coord : Option (List Char) := none
deriving DecidableEq

/-- The machine state a parse starts from. -/
def msInit : MachineState := {}

/-- StorePointResectionReadingCommentRecord of record.py. -/
structure ResectionReading where
  name : List Char
  FP : List Char
  AR : DMS
  ZE : DMS
  SD : Dec
  comment : Option (List Char)
deriving DecidableEq

/-- Variant payload of the record union (one constructor per record
class of record.py; base covers the codes parsed by the base class). -/
inductive Payload where
  | base
  | note
  | job (NM DT TM : List Char)
  | modeSetup (AD UN : Int) (SF : Dec) (EC AU : Int) (EO : Option Dec)
  | backsight (OP BP : List Char) (BS BC : DMS)
  | lineOfSight (HI HR : Option Dec)
  | occupy (OP : List Char) (N E EL : Dec)
  | offCenterShot (AR ZE : DMS) (SD : Dec)
  | storePoint (PN : List Char) (N E EL : Dec) (resection : Bool)
      (readings : List ResectionReading)
  | sideshot (OP FP : List Char) (AR ZE : DMS) (SD : Dec)
  | gps (PN : List Char) (LA LN ELraw : Dec) (N E EL : Dec) (FIXED : Bool)
      (HRMS VRMS AGE : Dec) (numEpochs : Int)
deriving DecidableEq

/-- Rw5Record of record.py: common fields plus the variant payload. -/
structure Rw5Record where
  index : Nat
  recordType : List Char
  content : List Char
  comment : Option (List Char)
  machineState : MachineState
  notes : List (List Char)
  payload : Payload
deriving DecidableEq

/-- Rw5Record.from_string (the base class): only the common fields. -/
def baseFromString (index : Nat) (recordType line : List Char) (ms : MachineState)
    (commentLines : List (List Char)) : Option (Rw5Record × MachineState) :=
  some ({ index := index, recordType := recordType, content := line,
          comment := getComment line, machineState := ms, notes := commentLines,
          payload := .base }, ms)

/-- NoteRecord.from_string: the base parse with the note tag. -/
def noteFromString (index : Nat) (recordType line : List Char) (ms : MachineState)
    (commentLines : List (List Char)) : Option (Rw5Record × MachineState) :=
  some ({ index := index, recordType := recordType, content := line,
          comment := getComment line, machineState := ms, notes := commentLines,
          payload := .note }, ms)

/-- JobRecord.from_string. -/
def jobFromString (index : Nat) (recordType line : List Char) (ms : MachineState)
    (commentLines : List (List Char)) : Option (Rw5Record × MachineState) :=
  some ({ index := index, recordType := recordType, content := line,
          comment := getComment line, machineState := ms, notes := commentLines,
          payload := .job (getParam line tokNM) (getParam line tokDT) (getParam line tokTM) },
        ms)

/-- BacksightRecord.from_string: asserts OP, BP and BS non-empty, parses
the two angles, and mutates the machine state's backsight point and
angle before storing it on the record and returning it. -/
def backsightFromString (index : Nat) (recordType line : List Char) (ms : MachineState)
    (commentLines : List (List Char)) : Option (Rw5Record × MachineState) :=
  let OP := getParam line tokOP
  let BP := getParam line tokBP
  let bsStr := getParam line tokBS
  if OP = [] ∨ BP = [] ∨ bsStr = [] then none
  else
    match dmsFromStr bsStr, dmsFromStr (getParam line tokBC) with
    | some BS, some BC =>
        let ms' := { ms with backsight_coord := some BP, backsight_angle := some BS }
        some ({ index := index, recordType := recordType, content := line,
                comment := getComment line, machineState := ms', notes := commentLines,
                payload := .backsight OP BP BS BC }, ms')
    | _, _ => none

/-- LineOfSightRecord.from_string: each of HI and HR is optional; a
present (truthy) value is parsed as a Decimal and written into the
machine state, an absent one leaves the prior state unchanged. -/
def lineOfSightFromString (index : Nat) (recordType line : List Char) (ms : MachineState)
    (commentLines : List (List Char)) : Option (Rw5Record × MachineState) :=
  let oHI := getParamOpt line tokHI
  let oHR := getParamOpt line tokHR
  let step1 : Option (Option Dec × MachineState) :=
    match oHI with
    | some s =>
        if s ≠ [] then (decOfStr s).map (fun d => (some d, { ms with instrument_height := some d }))
        else some (none, ms)
    | none => some (none, ms)
  match step1 with
  | none => none
  | some (hi, ms1) =>
      let step2 : Option (Option Dec × MachineState) :=
        match oHR with
        | some s =>
            if s ≠ [] then (decOfStr s).map (fun d => (some d, { ms1 with rod_height := some d }))
            else some (none, ms1)
        | none => some (none, ms1)
      match step2 with
      | none => none
      | some (hr, ms2) =>
          some ({ index := index, recordType := recordType, content := line,
                  comment := getComment line, machineState := ms2, notes := commentLines,
                  payload := .lineOfSight hi hr }, ms2)

/-- ModeSetupRecord.from_string. -/
def modeSetupFromString (index : Nat) (recordType line : List Char) (ms : MachineState)
    (commentLines : List (List Char)) : Option (Rw5Record × MachineState) :=
  let oEO := getParamOpt line tokEO
  let eoStep : Option (Option Dec) :=
    match oEO with
    | some s => if s = [] then some none else (decOfStr s).map some
    | none => some none
  match strToInt (getParam line tokAD), strToInt (getParam line tokUN),
        decOfStr (getParam line tokSF), strToInt (getParam line tokEC),
        strToInt (getParam line tokAU), eoStep with
  | some ad, some un, some sf, some ec, some au, some eo =>
      some ({ index := index, recordType := recordType, content := line,
              comment := getComment line, machineState := ms, notes := commentLines,
              payload := .modeSetup ad un sf ec au eo }, ms)
  | _, _, _, _, _, _ => none

/-- OccupyRecord.from_string. -/
def occupyFromString (index : Nat) (recordType line : List Char) (ms : MachineState)
    (commentLines : List (List Char)) : Option (Rw5Record × MachineState) :=
  match decOfStr (getParam line tokNsp), decOfStr (getParam line tokEsp),
        decOfStr (getParam line tokEL) with
  | some n, some e, some el =>
      some ({ index := index, recordType := recordType, content := line,
              comment := getComment line, machineState := ms, notes := commentLines,
              payload := .occupy (getParam line tokOP) n e el }, ms)
  | _, _, _ => none

/-- OffCenterShotRecord.from_string. -/
def offCenterFromString (index : Nat) (recordType line : List Char) (ms : MachineState)
    (commentLines : List (List Char)) : Option (Rw5Record × MachineState) :=
  match dmsFromStr (getParam line tokAR), dmsFromStr (getParam line tokZE),
        decOfStr (getParam line tokSD) with
  | some ar, some ze, some sd =>
      some ({ index := index, recordType := recordType, content := line,
              comment := getComment line, machineState := ms, notes := commentLines,
              payload := .offCenterShot ar ze sd }, ms)
  | _, _, _ => none

/-- The resection-reading loop of StorePointRecord.from_string: walk the
notes after the third one, parse each line beginning with --Reading into
a reading, and thread the comment variable, which the loop body
overwrites (so the record comment ends as the last reading's trailing
comment, exactly as the source does). -/
def spLoop : List (List Char) → Option (List Char) → List ResectionReading →
    Option (Option (List Char) × List ResectionReading)
  | [], comment, readings => some (comment, readings)
  | l :: rest, comment, readings =>
      if tokReading.isPrefixOf l then
        let nameStart := pyFindL l tokReadingSp 0 + (tokReadingSp.length : Int)
        let nameEnd := pyFindL l [':'] 0
        let name := pySlice l nameStart nameEnd
        let l2 := pySliceFrom l (nameEnd + 1)
        match dmsFromStr (getParam l2 tokAR), dmsFromStr (getParam l2 tokZE),
              decOfStr (getParam l2 tokSD) with
        | some ar, some ze, some sd =>
            spLoop rest (getComment l2)
              (readings ++ [⟨name, getParam l2 tokFP, ar, ze, sd, getComment l2⟩])
        | _, _, _ => none
      else spLoop rest comment readings

/-- StorePointRecord.from_string: fields from the line, the resection
flag from the third note, readings from the subsequent notes.  The
Python loop variable shadows the line parameter, so when the resection
branch runs over a non-empty tail of notes the stored content is the
last of those notes; the transcription reproduces that. -/
def storePointFromString (index : Nat) (recordType line : List Char) (ms : MachineState)
    (commentLines : List (List Char)) : Option (Rw5Record × MachineState) :=
  let PN := getParam line tokPN
  let res : Bool :=
    match commentLines.get? 2 with
    | some l2 => tokResection.isPrefixOf l2
    | none => false
  let loopRes :=
    if res then spLoop (commentLines.drop 3) (getComment line) []
    else some (getComment line, [])
  match loopRes with
  | none => none
  | some (comment, readings) =>
      match decOfStr (getParam line tokNsp), decOfStr (getParam line tokEsp),
            decOfStr (getParam line tokEL) with
      | some n, some e, some el =>
          let content := if res then (commentLines.drop 3).getLastD line else line
          some ({ index := index, recordType := recordType, content := content,
                  comment := comment, machineState := ms, notes := commentLines,
                  payload := .storePoint PN n e el res readings }, ms)
      | _, _, _ => none

/-- SideshotRecord.from_string. -/
def sideshotFromString (index : Nat) (recordType line : List Char) (ms : MachineState)
    (commentLines : List (List Char)) : Option (Rw5Record × MachineState) :=
  match dmsFromStr (getParam line tokAR), dmsFromStr (getParam line tokZE),
        decOfStr (getParam line tokSD) with
  | some ar, some ze, some sd =>
      some ({ index := index, recordType := recordType, content := line,
              comment := getComment line, machineState := ms, notes := commentLines,
              payload := .sideshot (getParam line tokOP) (getParam line tokFP) ar ze sd }, ms)
  | _, _, _ => none

/-- GPSRecord.from_string: processed coordinates from the first note,
solution quality from the multi-epoch block (note 3 starting with
--Valid Readings:, statistics at notes 11, 12 and 16) or the
single-epoch status line (note 3 starting with --HRMS); neither shape
means the Python code reads unbound locals and fails.  The source
shadows its raw EL with the processed one before storing _EL, so the
raw-elevation slot also holds the processed value. -/
def gpsFromString (index : Nat) (recordType line : List Char) (ms : MachineState)
    (commentLines : List (List Char)) : Option (Rw5Record × MachineState) :=
  let laS := getParam line tokLA
  let lnS := getParam line tokLN
  match commentLines.get? 0 with
  | none => none
  | some gsLine =>
      match decOfStr (getParam gsLine tokNsp), decOfStr (getParam gsLine tokEsp),
            decOfStr (getParam gsLine tokEL) with
      | some n, some e, some el =>
          match commentLines.get? 2 with
          | none => none
          | some l2 =>
              let quality : Option (Bool × Int × Dec × Dec × Dec) :=
                if tokValid.isPrefixOf l2 then
                  match strToInt (headSplit ' ' (pyStrip (dropMarker tokValid l2))) with
                  | none => none
                  | some num =>
                      match commentLines.get? 10, commentLines.get? 11, commentLines.get? 15 with
                      | some hl, some vl, some al =>
                          match decOfStr (headSplit ' ' (pyStrip (dropMarker tokHRMSAvg hl))),
                                decOfStr (headSplit ' ' (pyStrip (dropMarker tokVRMSAvg vl))),
                                decOfStr (headSplit ' ' (pyStrip (dropMarker tokAGEAvg al))) with
                          | some h, some v, some ag => some (true, num, h, v, ag)
                          | _, _, _ => none
                      | _, _, _ => none
                else if tokHRMSpre.isPrefixOf l2 then
                  match decOfStr (getParam l2 tokHRMSc), decOfStr (getParam l2 tokVRMSc),
                        decOfStr (getParam l2 tokAGEc) with
                  | some h, some v, some ag =>
                      some (decide (getParam l2 tokSTATUS = tokFIXED), 1, h, v, ag)
                  | _, _, _ => none
                else none
              match quality, decOfStr laS, decOfStr lnS with
              | some (fx, num, h, v, ag), some la, some ln =>
                  some ({ index := index, recordType := recordType, content := line,
                          comment := getComment line, machineState := ms, notes := commentLines,
                          payload := .gps (getParam line tokPN) la ln el n e el fx h v ag num },
                        ms)
              | _, _, _ => none
      | _, _, _ => none

/-- Rw5Parser.substitute_point_name: when the line carries the --CP/
marker, read the record's point name (PN field for GPS, FP field for
sideshots), read the whitespace-delimited token after CP/, and replace
every occurrence of the former by the latter; otherwise leave the line
alone. -/
def substitutePointName (recordType line : List Char) : List Char :=
  if ¬ containsSub line substMarker then line
  else
    let pnField := if recordType = tokGPS then tokPN else tokFP
    let pnStart := pyFindL line pnField 0 + 2
    let pnEnd := pyFindL line [','] pnStart
    let pointName := pySlice line pnStart pnEnd
    let newStart := pyFindL line tokCP 0 + (tokCP.length : Int)
    let newPointName := pyStrip (headSplit ' ' (pySliceFrom line newStart))
    pyReplace line pointName newPointName

/-- The field value the substitution reads as the record's original
point name: the text between the PN (GPS) or FP (sideshot) prefix and
the following comma. -/
def originalPointName (recordType line : List Char) : List Char :=
  let pnField := if recordType = tokGPS then tokPN else tokFP
  let s := pyFindL line pnField 0 + 2
  pySlice line s (pyFindL line [','] s)

/-- The whitespace-delimited token following CP/ in the line, the
replacement point name. -/
def substNewName (line : List Char) : List Char :=
  pyStrip (headSplit ' ' (pySliceFrom line (pyFindL line tokCP 0 + (tokCP.length : Int))))

/-- Record-code classification of parse_instruction: the text before the
first comma, collapsed to the comment marker when it starts with it. -/
def lineCode (line : List Char) : List Char :=
  let c := headSplit ',' line
  if c.take 2 = ddTok then ddTok else c

/-- Rw5Parser.parse_instruction: classify the line, apply point-name
substitution for sideshot and GPS lines, and dispatch to the variant
parser on the stripped line.  The machine state handed over is a deep
copy of the parser's current state, modelled here by value passing; the
state returned by the variant parser becomes the parser's new current
state. -/
def parseInstruction (index : Nat) (line : List Char) (commentLines : List (List Char))
    (ms : MachineState) : Option (Rw5Record × MachineState) :=
  let code := lineCode line
  if code = ddTok then noteFromString index code (pyStrip line) ms commentLines
  else if code = tokBK then backsightFromString index code (pyStrip line) ms commentLines
  else if code = tokJB then jobFromString index code (pyStrip line) ms commentLines
  else if code = tokLS then lineOfSightFromString index code (pyStrip line) ms commentLines
  else if code = tokMO then modeSetupFromString index code (pyStrip line) ms commentLines
  else if code = tokOC then occupyFromString index code (pyStrip line) ms commentLines
  else if code = tokOF then offCenterFromString index code (pyStrip line) ms commentLines
  else if code = tokSP then storePointFromString index code (pyStrip line) ms commentLines
  else if code = tokSS then
    sideshotFromString index code (pyStrip (substitutePointName tokSS line)) ms commentLines
  else if code = tokGPS then
    gpsFromString index code (pyStrip (substitutePointName tokGPS line)) ms commentLines
  else baseFromString index code (pyStrip line) ms commentLines

/-- The scan loop of Rw5Parser.parse: a line starting with the comment
marker while a record line is pending is buffered as a note; any other
line finalizes the pending record line (with its buffered notes) and
becomes the new pending line.  At end of input the pending line is
dropped, exactly as the source does (there is no final flush). -/
def scanAux : List (List Char) → Nat → Option (Nat × List Char) → List (List Char) →
    List (Nat × List Char × List (List Char))
  | [], _, _, _ => []
  | l :: rest, idx, pending, notes =>
      if ddTok.isPrefixOf l && pending.isSome then
        scanAux rest (idx + 1) pending (notes ++ [l])
      else
        match pending with
        | some p => (p.1, p.2, notes) :: scanAux rest (idx + 1) (some (idx, l)) []
        | none => scanAux rest (idx + 1) (some (idx, l)) []

/-- The finalized (index, record line, notes) triples of a scan. -/
def scanTriples (lines : List (List Char)) : List (Nat × List Char × List (List Char)) :=
  scanAux lines 0 none []

/-- Thread parse_instruction over finalized triples, carrying the
machine state; any per-record failure aborts the whole parse, as the
Python exception would. -/
def parseEntries : List (Nat × List Char × List (List Char)) → MachineState →
    Option (List Rw5Record × MachineState)
  | [], ms => some ([], ms)
  | (i, l, ns) :: rest, ms =>
      match parseInstruction i l ns ms with
      | none => none
      | some (r, ms') =>
          match parseEntries rest ms' with
          | none => none
          | some (rs, msf) => some (r :: rs, msf)

/-- Rw5Parser.parse: scan the input lines and parse every finalized
record line in order. -/
def runParse (lines : List (List Char)) : Option (List Rw5Record × MachineState) :=
  parseEntries (scanTriples lines) msInit

/-- A single coordinate reading (coordinate.py Coordinate). -/
structure Coord where
  northing : Dec
  easting : Dec
  elevation : Dec
deriving DecidableEq

/-- Association-list lookup, the model of a Python dict access that
may raise KeyError. -/
def alookup {β : Type} : List (List Char × β) → List Char → Option β
  | [], _ => none
  | (k, v) :: t, p => if k = p then some v else alookup t p

/-- Increment the occurrence count of a point, inserting it at the end
with count 1 when absent (Python dict insertion order). -/
def bumpOcc : List (List Char × Nat) → List Char → List (List Char × Nat)
  | [], p => [(p, 1)]
  | (k, v) :: t, p => if k = p then (k, v + 1) :: t else (k, v) :: bumpOcc t p

/-- Append a coordinate reading under a point name, inserting the point
at the end when absent. -/
def addCoord : List (List Char × List Coord) → List Char → Coord →
    List (List Char × List Coord)
  | [], p, c => [(p, [c])]
  | (k, v) :: t, p, c => if k = p then (k, v ++ [c]) :: t else (k, v) :: addCoord t p c

/-- One step of Rw5Data.process_coordinates: GPS records and
non-resection store points record a coordinate and count an occurrence
under their point name; sideshots count an occurrence under their
foresight point; everything else is ignored. -/
def pcStep (acc : List (List Char × List Coord) × List (List Char × Nat))
    (r : Rw5Record) : List (List Char × List Coord) × List (List Char × Nat) :=
  match r.payload with
  | .gps pn _ _ _ n e el _ _ _ _ _ => (addCoord acc.1 pn ⟨n, e, el⟩, bumpOcc acc.2 pn)
  | .storePoint pn n e el res _ =>
      if res then acc else (addCoord acc.1 pn ⟨n, e, el⟩, bumpOcc acc.2 pn)
  | .sideshot _ fp _ _ _ => (acc.1, bumpOcc acc.2 fp)
  | _ => acc

/-- Rw5Data.process_coordinates over the record sequence. -/
def processCoordinates (recs : List Rw5Record) :
    List (List Char × List Coord) × List (List Char × Nat) :=
  recs.foldl pcStep ([], [])

/-- Rw5Data: records plus the two mappings built by
process_coordinates. -/
structure Rw5Data where
  path : List Char
  records : List Rw5Record
  coordinates : List (List Char × List Coord)
  occ : List (List Char × Nat)

/-- Build an Rw5Data from a record list (the Rw5Data constructor). -/
def mkRw5Data (path : List Char) (records : List Rw5Record) : Rw5Data :=
  let pc := processCoordinates records
  ⟨path, records, pc.1, pc.2⟩

/-- The apostrophe that prefixes trailing comments in .dat lines. -/
def quoteChar : Char := Char.ofNat 39

/-- Rw5ToDatConverter._comment. -/
def commentLine (c : List Char) : List Char := '#' :: ' ' :: c

/-- AvgCoordinate.avg, one component: reduce with + over the readings
divided by their number.  Python divides Decimals under a 28-significant
digit context; the exact rational quotient used here agrees with it on
every value the 3-decimal output rounding can distinguish. -/
def avgOf (f : Coord → Dec) (cs : List Coord) : ℚ :=
  (cs.foldl (fun a c => a + (f c).toRat) 0) / (cs.length : ℚ)

/-- round(q, 3) on the exact average: quantize to three fractional
digits, ties to even. -/
def ratToDec3 (q : ℚ) : Dec := ⟨pyRoundInt (q * 1000), 3⟩

/-- Rw5ToDatConverter._c: the fixed-width coordinate line (easting then
northing, as the source deliberately swaps them). -/
def cLine (station : List Char) (n e el : ℚ) : List Char :=
  pyLjust 8 ("C  ".data ++ station) ++ pyRjust 15 (decStr (ratToDec3 e)) ++
  pyRjust 15 (decStr (ratToDec3 n)) ++ pyRjust 10 (decStr (ratToDec3 el))

/-- Rw5ToDatConverter._ss.  The Python source spells the body as one
expression, a + b + ... + f-string if comment else empty, and the
conditional expression binds looser than +, so the five fixed columns
are produced only when the comment is truthy; otherwise the whole line
is the empty string.  The transcription reproduces that precedence. -/
def ssLine (at_ from_ to_ : List Char) (angle : DMS) (sd : Dec) (ze : DMS)
    (hi hr : Dec) (comment : Option (List Char)) : List Char :=
  if pyTruthy comment then
    pyLjust 18 ("SS ".data ++ at_ ++ '-' :: from_ ++ '-' :: to_) ++
    pyRjust 15 (dmsStr angle) ++ pyRjust 12 (decStr (decRound 4 sd)) ++
    pyRjust 15 (dmsStr ze) ++
    pyRjust 15 (decStr (decRound 3 hi) ++ '/' :: decStr (decRound 3 hr)) ++
    ' ' :: quoteChar :: comment.getD []
  else []

/-- Rw5ToDatConverter._m, with the same precedence behavior as _ss. -/
def mLine (at_ from_ to_ : List Char) (angle : DMS) (sd : Dec) (ze : DMS)
    (hi hr : Dec) (comment : Option (List Char)) : List Char :=
  if pyTruthy comment then
    pyLjust 18 ("M  ".data ++ at_ ++ '-' :: from_ ++ '-' :: to_) ++
    pyRjust 15 (dmsStr angle) ++ pyRjust 12 (decStr (decRound 4 sd)) ++
    pyRjust 15 (dmsStr ze) ++
    pyRjust 15 (decStr (decRound 3 hi) ++ '/' :: decStr (decRound 3 hr)) ++
    ' ' :: quoteChar :: comment.getD []
  else []

/-- Rw5ToDatConverter._dv: no angle column (fifteen blanks in its
place), and the same precedence behavior as _ss. -/
def dvLine (at_ from_ : List Char) (sd : Dec) (ze : DMS)
    (hi hr : Dec) (comment : Option (List Char)) : List Char :=
  if pyTruthy comment then
    pyLjust 18 ("DV ".data ++ at_ ++ '-' :: from_) ++
    pyRjust 15 [] ++ pyRjust 12 (decStr (decRound 4 sd)) ++
    pyRjust 15 (dmsStr ze) ++
    pyRjust 15 (decStr (decRound 3 hi) ++ '/' :: decStr (decRound 3 hr)) ++
    ' ' :: quoteChar :: comment.getD []
  else []

/-- The three output command shapes write_side_shot chooses between,
with the arguments it passes. -/
inductive DatCommand where
  | dv (at_ from_ : List Char) (sd : Dec) (ze : DMS) (hi hr : Dec)
      (comment : Option (List Char))
  | m (at_ from_ to_ : List Char) (angle : DMS) (sd : Dec) (ze : DMS) (hi hr : Dec)
      (comment : Option (List Char))
  | ss (at_ from_ to_ : List Char) (angle : DMS) (sd : Dec) (ze : DMS) (hi hr : Dec)
      (comment : Option (List Char))
deriving DecidableEq

/-- Render a chosen command through the corresponding line builder. -/
def renderDatCommand : DatCommand → List Char
  | .dv a f sd ze hi hr c => dvLine a f sd ze hi hr c
  | .m a f t ang sd ze hi hr c => mLine a f t ang sd ze hi hr c
  | .ss a f t ang sd ze hi hr c => ssLine a f t ang sd ze hi hr c

/-- The decision logic of Rw5ToDatConverter.write_side_shot: the asserts
require backsight angle and point, instrument height and rod height in
the record's snapshot; a foresight equal to the backsight point yields a
DV command (before any angle is computed); otherwise the relative angle
is the record angle minus the snapshot backsight angle, and the
occurrence count of the foresight point picks M (seen more than once)
over SS.  A foresight point missing from the count table is the Python
KeyError. -/
def sideShotCommand (occ : List (List Char × Nat)) (ms : MachineState)
    (OP FP : List Char) (AR ZE : DMS) (SD : Dec) (comment : Option (List Char)) :
    Option DatCommand :=
  match ms.backsight_angle, ms.backsight_coord, ms.instrument_height, ms.rod_height with
  | some bs, some bc, some hi, some hr =>
      if FP = bc then some (.dv OP bc SD ZE hi hr comment)
      else
        let angle := dmsSub AR bs
        match alookup occ FP with
        | none => none
        | some cnt =>
            if cnt > 1 then some (.m OP bc FP angle SD ZE hi hr comment)
            else some (.ss OP bc FP angle SD ZE hi hr comment)
  | _, _, _, _ => none

/-- write_side_shot applied to a sideshot record: choose and render. -/
def writeSideShotLine (occ : List (List Char × Nat)) (r : Rw5Record) :
    Option (List Char) :=
  match r.payload with
  | .sideshot OP FP ar ze sd =>
      (sideShotCommand occ r.machineState OP FP ar ze sd r.comment).map renderDatCommand
  | _ => none

/-- Rw5Data.job_record: the first Job record, or the ValueError the
property raises. -/
def jobRecordOf : List Rw5Record → Except (List Char) (List Char × List Char × List Char)
  | [] => .error "No job record.".data
  | r :: t =>
      match r.payload with
      | .job nm dt tm => .ok (nm, dt, tm)
      | _ => jobRecordOf t

/-- Rw5ToDatConverter.write_header, with the wall-clock timestamp passed
in (the source reads datetime.now, an input of the surrounding
application). -/
def writeHeader (d : Rw5Data) (now : List Char) : Except (List Char) (List (List Char)) :=
  match jobRecordOf d.records with
  | .error e => .error e
  | .ok (nm, dt, tm) =>
      .ok [commentLine "PY RW5 Version 1.0".data, [],
           commentLine ("Input File Path : ".data ++ d.path),
           commentLine ("Date Processed  : ".data ++ now), [],
           commentLine ("Job             : ".data ++ nm),
           commentLine ("Date            : ".data ++ dt),
           commentLine ("Time            : ".data ++ tm)]

/-- Rw5ToDatConverter.write_coordinate_prelude: one C line per point, in
first-seen order, from the component averages. -/
def writeCoordinatePrelude (d : Rw5Data) : List (List Char) :=
  d.coordinates.map (fun p =>
    cLine p.1 (avgOf Coord.northing p.2) (avgOf Coord.easting p.2)
      (avgOf Coord.elevation p.2))

/-- Rw5ToDatConverter.write_commands: sideshots go through
write_side_shot (whose failed asserts or KeyError abort), and store
points hit the is_resection attribute read, which the current record
class does not define, so any store point raises AttributeError. -/
def writeCommands (occ : List (List Char × Nat)) :
    List Rw5Record → Except (List Char) (List (List Char))
  | [] => .ok []
  | r :: t =>
      match r.payload with
      | .sideshot _ _ _ _ _ =>
          match writeSideShotLine occ r with
          | none => .error "write_side_shot assertion or KeyError".data
          | some line =>
              match writeCommands occ t with
              | .error e => .error e
              | .ok rest => .ok (line :: rest)
      | .storePoint _ _ _ _ _ _ => .error "AttributeError: is_resection".data
      | _ => writeCommands occ t

/-- Rw5ToDatConverter.convert: header, blank, coordinate prelude, blank,
command body. -/
def convert (d : Rw5Data) (now : List Char) : Except (List Char) (List (List Char)) :=
  match writeHeader d now with
  | .error e => .error e
  | .ok hdr =>
      match writeCommands d.occ d.records with
      | .error e => .error e
      | .ok cmds => .ok (hdr ++ [[]] ++ writeCoordinatePrelude d ++ [[]] ++ cmds)

/-! ### Supporting lemmas -/

lemma digitChar_mem (d : Nat) : digitChar d ∈ digitChars := by
  unfold digitChar; split_ifs <;> decide

lemma mem_natDigitsAux : ∀ fuel n c, c ∈ natDigitsAux fuel n → c ∈ digitChars := by
  intro fuel
  induction fuel with
  | zero => intro n c h; simp [natDigitsAux] at h
  | succ f ih =>
      intro n c h
      unfold natDigitsAux at h
      split at h
      · simp at h
      · rcases List.mem_append.mp h with h1 | h2
        · exact ih _ _ h1
        · simp at h2; subst h2; exact digitChar_mem _

lemma mem_natStr {c : Char} {n : Nat} (h : c ∈ natStr n) : c ∈ digitChars := by
  unfold natStr at h
  split at h
  · simp at h; subst h; decide
  · exact mem_natDigitsAux _ _ _ h

lemma natStr_ne_nil (n : Nat) : natStr n ≠ [] := by
  unfold natStr
  split
  · simp
  · unfold natDigitsAux
    split
    · exact absurd (by assumption) (by assumption)
    · simp

lemma mem_intStr {c : Char} {i : Int} (h : c ∈ intStr i) : c = '-' ∨ c ∈ digitChars := by
  unfold intStr at h
  split at h
  · rcases List.mem_cons.mp h with h1 | h1
    · exact Or.inl h1
    · exact Or.inr (mem_natStr h1)
  · exact Or.inr (mem_natStr h)

lemma mem_pyZfill {c : Char} {w : Nat} {l : List Char} (h : c ∈ pyZfill w l) :
    c = '0' ∨ c ∈ l := by
  unfold pyZfill at h
  split at h
  · split at h
    · rcases List.mem_append.mp h with h1 | h1
      · rcases List.mem_append.mp h1 with h2 | h2
        · exact Or.inr (List.take_subset _ _ h2)
        · exact Or.inl (List.eq_of_mem_replicate h2)
      · exact Or.inr (List.drop_subset _ _ h1)
    · rcases List.mem_append.mp h with h1 | h1
      · exact Or.inl (List.eq_of_mem_replicate h1)
      · exact Or.inr h1
  · exact Or.inr h

lemma digitVal_dash : digitVal '-' = none := by decide

lemma digitsToNatGo_none : ∀ (l : List Char) (acc : Nat), '-' ∈ l →
    digitsToNatGo l acc = none := by
  intro l
  induction l with
  | nil => intro acc h; cases h
  | cons c t ih =>
      intro acc h
      rcases List.mem_cons.mp h with h1 | h1
      · subst h1; simp [digitsToNatGo, digitVal_dash]
      · rcases hdv : digitVal c with _ | d <;> simp [digitsToNatGo, hdv, ih _ h1]

lemma digitsToNat_none {l : List Char} (h : '-' ∈ l) : digitsToNat l = none := by
  cases l with
  | nil => cases h
  | cons c t => exact digitsToNatGo_none _ _ h

lemma strToInt_none_of_tail_dash (c : Char) (cs : List Char) (h : '-' ∈ cs) :
    strToInt (c :: cs) = none := by
  unfold strToInt
  by_cases h1 : c = '-'
  · simp [h1, digitsToNat_none h]
  · by_cases h2 : c = '+'
    · simp [h1, h2, digitsToNat_none h]
    · simp [h1, h2, digitsToNat_none (List.mem_cons_of_mem c h)]

lemma splitOnce_append (A B : List Char) (h : '.' ∉ A) :
    splitOnceL '.' (A ++ '.' :: B) = some (A, B) := by
  induction A with
  | nil => simp [splitOnceL]
  | cons a A ih =>
      have ha : a ≠ '.' := fun hh => h (by simp [hh])
      have hA : '.' ∉ A := fun hh => h (List.mem_cons_of_mem _ hh)
      simp [splitOnceL, ha, ih hA]

lemma mem_pyFloatPre {c : Char} {q : ℚ} (h : c ∈ pyFloatPre q) :
    c = '-' ∨ c ∈ digitChars := by
  unfold pyFloatPre at h
  rcases List.mem_append.mp h with h1 | h1
  · split at h1
    · simp at h1; exact Or.inl h1
    · simp at h1
  · exact Or.inr (mem_natStr h1)

lemma not_dot_pyFloatPre (q : ℚ) : '.' ∉ pyFloatPre q := by
  intro h
  rcases mem_pyFloatPre h with h1 | h1
  · exact absurd h1 (by decide)
  · exact absurd h1 (by decide)

lemma splitOnce_pyFloatRepr (q : ℚ) :
    splitOnceL '.' (pyFloatRepr q) = some (pyFloatPre q, pyFloatFrac q) :=
  splitOnce_append _ _ (not_dot_pyFloatPre q)

lemma intStr_ne_nil (i : Int) : intStr i ≠ [] := by
  unfold intStr
  split
  · simp
  · exact natStr_ne_nil _

/-- C2, corrected: the round-trip law fails for every angle, because
DMS.__str__ renders the dash-separated D-MM-SS.ss form while
DMS.from_str parses the packed decimal DDD.MMSS form: from_str splits on
the first decimal point, and everything before it still contains the
dash separators, so the int() call on the degrees part always fails
(ValueError in Python, none here).  In particular no valid angle
round-trips. -/
theorem c2_format_never_reparses (a : DMS) : dmsFromStr (dmsStr a) = none := by
  have hparts := splitOnce_pyFloatRepr a.seconds
  have hstr : dmsStr a =
      (intStr a.degrees ++ '-' :: (pyZfill 2 (intStr a.minutes) ++ '-' ::
        pyZfill 2 (pyFloatPre a.seconds))) ++
      '.' :: pyLjustWith '0' 2 (pyFloatFrac a.seconds) := by
    simp [dmsStr, hparts, List.append_assoc]
  have hmem : ∀ c ∈ intStr a.degrees ++ '-' :: (pyZfill 2 (intStr a.minutes) ++ '-' ::
      pyZfill 2 (pyFloatPre a.seconds)), c = '-' ∨ c = '0' ∨ c ∈ digitChars := by
    intro c h
    rcases List.mem_append.mp h with h1 | h1
    · rcases mem_intStr h1 with h2 | h2
      · exact Or.inl h2
      · exact Or.inr (Or.inr h2)
    · rcases List.mem_cons.mp h1 with h2 | h2
      · exact Or.inl h2
      · rcases List.mem_append.mp h2 with h3 | h3
        · rcases mem_pyZfill h3 with h4 | h4
          · exact Or.inr (Or.inl h4)
          · rcases mem_intStr h4 with h5 | h5
            · exact Or.inl h5
            · exact Or.inr (Or.inr h5)
        · rcases List.mem_cons.mp h3 with h4 | h4
          · exact Or.inl h4
          · rcases mem_pyZfill h4 with h5 | h5
            · exact Or.inr (Or.inl h5)
            · rcases mem_pyFloatPre h5 with h6 | h6
              · exact Or.inl h6
              · exact Or.inr (Or.inr h6)
  have hnodot : '.' ∉ intStr a.degrees ++ '-' :: (pyZfill 2 (intStr a.minutes) ++ '-' ::
      pyZfill 2 (pyFloatPre a.seconds)) := by
    intro h
    rcases hmem _ h with h1 | h1 | h1 <;> exact absurd h1 (by decide)
  have hsplit : splitOnceL '.' (dmsStr a) =
      some (intStr a.degrees ++ '-' :: (pyZfill 2 (intStr a.minutes) ++ '-' ::
        pyZfill 2 (pyFloatPre a.seconds)),
        pyLjustWith '0' 2 (pyFloatFrac a.seconds)) := by
    rw [hstr]; exact splitOnce_append _ _ hnodot
  obtain ⟨c, cs0, hc⟩ := List.exists_cons_of_ne_nil (intStr_ne_nil a.degrees)
  rw [hc] at hsplit
  have hdash : '-' ∈ cs0 ++ '-' :: (pyZfill 2 (intStr a.minutes) ++ '-' ::
      pyZfill 2 (pyFloatPre a.seconds)) := by simp
  have hcons : (c :: cs0) ++ '-' :: (pyZfill 2 (intStr a.minutes) ++ '-' ::
      pyZfill 2 (pyFloatPre a.seconds)) =
      c :: (cs0 ++ '-' :: (pyZfill 2 (intStr a.minutes) ++ '-' ::
        pyZfill 2 (pyFloatPre a.seconds))) := by simp
  rw [hcons] at hsplit
  simp [dmsFromStr, hsplit, strToInt_none_of_tail_dash _ _ hdash]

/-- C2, counterexample to the claim as stated: the concrete valid angle
10 degrees 0 minutes 0 seconds formats to the string 10-00-00.00, whose
parse fails outright (so in particular it does not yield an angle equal
to the original). -/
theorem c2_roundtrip_fails_at_ten :
    (0 ≤ (⟨10, 0, 0⟩ : DMS).minutes ∧ (⟨10, 0, 0⟩ : DMS).minutes < 60 ∧
      0 ≤ (⟨10, 0, 0⟩ : DMS).seconds ∧ (⟨10, 0, 0⟩ : DMS).seconds < 60) ∧
    dmsFromStr (dmsStr ⟨10, 0, 0⟩) = none := by
  exact ⟨by norm_num, rfl⟩

/-- C1 (code_bug): a file with exactly one data line parses to zero
records: the scanner finalizes a pending line only when the next data
line arrives, and the source never flushes the final pending record
after the loop, so the last data line of every input is silently
dropped (here, the only one). -/
theorem c1_single_data_line_yields_no_records :
    runParse ["JB,NMX,DT08-31-2023,TM07:54:46".data] = some ([], msInit) := rfl

/-- C10: the seconds of every subtraction result is a whole number,
because DMS.from_degrees rounds the seconds remainder to the nearest
integer, discarding any fractional seconds of the inputs. -/
theorem c10_subtract_yields_integer_seconds (a b : DMS) :
    ∃ n : Int, (dmsSub a b).seconds = (n : ℚ) := by
  unfold dmsSub dmsFromDegrees
  exact ⟨_, rfl⟩

/-- C3 (code_bug): with no trailing comment the sideshot line is the
empty string, not the five fixed-width columns: the conditional
expression in _ss binds looser than the string concatenation, so the
whole column block is guarded by the comment.  With a comment the line
does contain the 18-character label, 15-character angle, 12-character
distance (4 decimals), 15-character zenith and instrument/rod-height
columns followed by the apostrophe-prefixed comment, which is the
layout the claim (and the function's own docstring) describes for both
cases. -/
theorem c3_columns_vanish_without_comment :
    ssLine "I2".data "CP5".data "6033".data ⟨216, 3, 2⟩ ⟨233982, 4⟩ ⟨85, 0, 32⟩
        ⟨15450, 4⟩ ⟨2100, 4⟩ none = [] ∧
    ssLine "I2".data "CP5".data "6033".data ⟨216, 3, 2⟩ ⟨233982, 4⟩ ⟨85, 0, 32⟩
        ⟨15450, 4⟩ ⟨2100, 4⟩ (some "BOLT".data) =
      "SS I2-CP5-6033       216-03-02.00     23.3982    85-00-32.00    1.545/0.210 'BOLT".data := by
  exact ⟨rfl, by with_unfolding_all decide⟩

/-- C5, counterexample: encoding the empty dataset does not yield an
empty output line sequence; the header writer reaches for the job
record first and the job_record property raises ValueError (No job
record.). -/
theorem c5_convert_error_on_empty :
    convert (mkRw5Data "empty.rw5".data []) "2026-10-12T00:00:00".data =
      Except.error "No job record.".data := rfl

/-- C5, corrected: parsing zero lines yields the empty record sequence
and a dataset with empty coordinates and occurrence counts, but
encoding that dataset raises the No job record error instead of
yielding an empty line sequence. -/
theorem c5_empty_input_behavior :
    runParse [] = some ([], msInit) ∧
    (mkRw5Data "empty.rw5".data []).records = [] ∧
    (mkRw5Data "empty.rw5".data []).coordinates = [] ∧
    (mkRw5Data "empty.rw5".data []).occ = [] ∧
    convert (mkRw5Data "empty.rw5".data []) "2026-10-12T00:00:00".data =
      Except.error "No job record.".data := by
  exact ⟨rfl, rfl, rfl, rfl, rfl⟩

/-- C4: the command-selection rule of write_side_shot.  Provided the
snapshot has backsight angle, backsight point, instrument height and rod
height: a foresight equal to the backsight point yields the DV command
(which has no angle argument); otherwise, with the foresight's
occurrence count looked up in the dataset table, a count above one
yields the M command and any other count the SS command, and in both of
those cases the angle passed is subtract(record.AR, snapshot backsight
angle). -/
theorem c4_side_shot_command_selection
    (occ : List (List Char × Nat)) (ms : MachineState) (OP FP : List Char)
    (AR ZE : DMS) (SD : Dec) (comment : Option (List Char))
    (bs : DMS) (bc : List Char) (hi hr : Dec) (n : Nat)
    (h1 : ms.backsight_angle = some bs) (h2 : ms.backsight_coord = some bc)
    (h3 : ms.instrument_height = some hi) (h4 : ms.rod_height = some hr) :
    (FP = bc →
      sideShotCommand occ ms OP FP AR ZE SD comment =
        some (.dv OP bc SD ZE hi hr comment)) ∧
    (FP ≠ bc → alookup occ FP = some n →
      ((1 < n →
        sideShotCommand occ ms OP FP AR ZE SD comment =
          some (.m OP bc FP (dmsSub AR bs) SD ZE hi hr comment)) ∧
       (¬ 1 < n →
        sideShotCommand occ ms OP FP AR ZE SD comment =
          some (.ss OP bc FP (dmsSub AR bs) SD ZE hi hr comment)))) := by
  unfold sideShotCommand
  rw [h1, h2, h3, h4]
  constructor
  · intro h; simp [h]
  · intro h hocc
    constructor <;> intro hn <;> simp [h, hocc, hn]

/-- The machine state of the concrete C4 scenario: backsight 315-00-00
onto point 2, instrument height 1.5, rod height 0.2. -/
def c4ms : MachineState :=
  { instrument_height := some ⟨15, 1⟩, rod_height := some ⟨2, 1⟩,
    backsight_angle := some ⟨315, 0, 0⟩, backsight_coord := some "2".data }

/-- Occurrence table of the concrete C4 scenario: point 3 seen once. -/
def c4occ : List (List Char × Nat) := [("3".data, 1)]

/-- C4, witness: on the concrete scenario the selection rule yields the
plain SS command with the subtracted angle. -/
theorem c4_side_shot_command_selection_witness :
    sideShotCommand c4occ c4ms "1".data "3".data ⟨10, 0, 0⟩ ⟨90, 0, 0⟩ ⟨50000, 4⟩ none =
      some (.ss "1".data "2".data "3".data (dmsSub ⟨10, 0, 0⟩ ⟨315, 0, 0⟩) ⟨50000, 4⟩
        ⟨90, 0, 0⟩ ⟨15, 1⟩ ⟨2, 1⟩ none) :=
  ((c4_side_shot_command_selection c4occ c4ms "1".data "3".data ⟨10, 0, 0⟩ ⟨90, 0, 0⟩
      ⟨50000, 4⟩ none ⟨315, 0, 0⟩ "2".data ⟨15, 1⟩ ⟨2, 1⟩ 1 rfl rfl rfl rfl).2
    (by decide) rfl).2 (by decide)

/-- A throwaway record used only as the default of Option.getD in
closed statements. -/
def dummyRecord : Rw5Record :=
  { index := 0, recordType := [], content := [], comment := none,
    machineState := msInit, notes := [], payload := .base }

/-- The resection flag of a store-point record (false on any other
payload). -/
def spFlag (r : Rw5Record) : Bool :=
  match r.payload with
  | .storePoint _ _ _ _ res _ => res
  | _ => false

/-- The store-point line of the concrete C6 scenarios. -/
def c6line : List Char := "SP,PNI2,N 5.0,E 6.0,EL7.0,--RES".data

/-- Notes whose third line carries the Resection marker but with no
Reading lines after it. -/
def c6notes : List (List Char) :=
  ["--a".data, "--b".data, "--Resection:HI1.5".data]

/-- The record parsed from the C6 marker-only scenario. -/
def c6rec : Rw5Record :=
  ((storePointFromString 0 tokSP (pyStrip c6line) msInit c6notes).map Prod.fst).getD
    dummyRecord

/-- C6, counterexample: a store point whose third note starts with
--Resection: but which has no Reading notes parses with resection true
and an empty reading list, so the non-empty-iff-flag invariant fails in
the right-to-left direction. -/
theorem c6_flag_true_with_no_readings :
    c6rec.payload =
      .storePoint "I2".data ⟨50, 1⟩ ⟨60, 1⟩ ⟨70, 1⟩ true [] := rfl

/-- C6, corrected: only the left-to-right direction holds.  Whenever a
parsed store point has a non-empty reading list its resection flag is
true (readings are only ever collected inside the resection branch); the
converse fails, per the counterexample. -/
theorem c6_readings_nonempty_implies_flag
    (index : Nat) (rt line : List Char) (ms : MachineState) (notes : List (List Char))
    (r : Rw5Record) (ms2 : MachineState)
    (h : storePointFromString index rt line ms notes = some (r, ms2))
    (pn : List Char) (n e el : Dec) (res : Bool) (rds : List ResectionReading)
    (hp : r.payload = .storePoint pn n e el res rds)
    (hne : rds ≠ []) : res = true := by
  unfold storePointFromString at h
  cases hres : (match notes.get? 2 with
      | some l2 => tokResection.isPrefixOf l2
      | none => false) with
  | true =>
      rw [hres] at h
      simp only [if_true] at h
      rcases hl : spLoop (notes.drop 3) (getComment line) [] with _ | ⟨comment, readings⟩ <;>
        rw [hl] at h
      · cases h
      · rcases hN : decOfStr (getParam line tokNsp) with _ | nv <;> rw [hN] at h
        · cases h
        · rcases hE : decOfStr (getParam line tokEsp) with _ | ev <;> rw [hE] at h
          · cases h
          · rcases hL : decOfStr (getParam line tokEL) with _ | lv <;> rw [hL] at h
            · cases h
            · dsimp only at h
              injection h with h1
              injection h1 with h1a h1b
              subst h1a
              simp only at hp
              injection hp with _ _ _ _ hflag _
              exact hflag.symm
  | false =>
      rw [hres] at h
      simp only [if_false] at h
      rcases hN : decOfStr (getParam line tokNsp) with _ | nv <;> rw [hN] at h
      · cases h
      · rcases hE : decOfStr (getParam line tokEsp) with _ | ev <;> rw [hE] at h
        · cases h
        · rcases hL : decOfStr (getParam line tokEL) with _ | lv <;> rw [hL] at h
          · cases h
          · dsimp only at h
            injection h with h1
            injection h1 with h1a h1b
            subst h1a
            simp only at hp
            injection hp with _ _ _ _ _ hrds
            exact absurd hrds.symm hne

/-- Notes with the Resection marker and one Reading line. -/
def c6bnotes : List (List Char) :=
  ["--a".data, "--b".data, "--Resection:x".data,
   "--Reading A:FP2, AR10.0000, ZE90.0000, SD5.0000".data]

/-- The record parsed from the C6 scenario with one Reading note. -/
def c6brec : Rw5Record :=
  ((storePointFromString 0 tokSP (pyStrip c6line) msInit c6bnotes).map Prod.fst).getD
    dummyRecord

/-- The single reading that scenario produces. -/
def c6breadings : List ResectionReading :=
  [⟨"A".data, "2".data, ⟨10, 0, 0⟩, ⟨90, 0, 0⟩, ⟨50000, 4⟩, none⟩]

/-- C6, witness: on the concrete one-reading store point the hypotheses
of the corrected claim hold and the resection flag is forced true. -/
theorem c6_readings_nonempty_implies_flag_witness :
    storePointFromString 0 tokSP (pyStrip c6line) msInit c6bnotes = some (c6brec, msInit) ∧
    c6brec.payload = .storePoint "I2".data ⟨50, 1⟩ ⟨60, 1⟩ ⟨70, 1⟩ (spFlag c6brec) c6breadings ∧
    spFlag c6brec = true :=
  ⟨rfl, rfl, c6_readings_nonempty_implies_flag 0 tokSP (pyStrip c6line) msInit c6bnotes
    c6brec msInit rfl "I2".data ⟨50, 1⟩ ⟨60, 1⟩ ⟨70, 1⟩ (spFlag c6brec) c6breadings rfl
    (by decide)⟩

/-- Is this a GPS record with point name p? -/
def isGpsAt (p : List Char) (r : Rw5Record) : Bool :=
  match r.payload with
  | .gps pn _ _ _ _ _ _ _ _ _ _ _ => pn = p
  | _ => false

/-- Is this a non-resection store point with point name p? -/
def isSpAt (p : List Char) (r : Rw5Record) : Bool :=
  match r.payload with
  | .storePoint pn _ _ _ res _ => !res && pn = p
  | _ => false

/-- Is this a sideshot whose foresight point is p? -/
def isSsAt (p : List Char) (r : Rw5Record) : Bool :=
  match r.payload with
  | .sideshot _ fp _ _ _ => fp = p
  | _ => false

/-- Does this record bump the occurrence count of p? -/
def contributes (p : List Char) (r : Rw5Record) : Bool :=
  isGpsAt p r || isSpAt p r || isSsAt p r

/-- The processed coordinate this record contributes under point p:
GPS records and non-resection store points named p contribute theirs,
everything else (sideshots included) contributes none. -/
def coordOf (p : List Char) (r : Rw5Record) : Option Coord :=
  match r.payload with
  | .gps pn _ _ _ n e el _ _ _ _ _ => if pn = p then some ⟨n, e, el⟩ else none
  | .storePoint pn n e el res _ =>
      if !res && pn = p then some ⟨n, e, el⟩ else none
  | _ => none

lemma alookup_bumpOcc (m : List (List Char × Nat)) (q p : List Char) :
    alookup (bumpOcc m q) p =
      if p = q then some ((alookup m p).getD 0 + 1) else alookup m p := by
  induction m with
  | nil =>
      by_cases h : p = q
      · simp [bumpOcc, alookup, h]
      · simp [bumpOcc, alookup, h, Ne.symm h]
  | cons kv t ih =>
      obtain ⟨k, v⟩ := kv
      by_cases hk : k = q
      · subst hk
        by_cases hp : p = k
        · simp [bumpOcc, alookup, hp]
        · simp [bumpOcc, alookup, hp, Ne.symm hp]
      · by_cases hp : k = p
        · subst hp
          have hpq : ¬ k = q := hk
          simp [bumpOcc, alookup, hk, hpq]
        · simp [bumpOcc, alookup, hk, hp, ih]

lemma alookup_addCoord (m : List (List Char × List Coord)) (q p : List Char) (c : Coord) :
    alookup (addCoord m q c) p =
      if p = q then some ((alookup m p).getD [] ++ [c]) else alookup m p := by
  induction m with
  | nil =>
      by_cases h : p = q
      · simp [addCoord, alookup, h]
      · simp [addCoord, alookup, h, Ne.symm h]
  | cons kv t ih =>
      obtain ⟨k, v⟩ := kv
      by_cases hk : k = q
      · subst hk
        by_cases hp : p = k
        · simp [addCoord, alookup, hp]
        · simp [addCoord, alookup, hp, Ne.symm hp]
      · by_cases hp : k = p
        · subst hp
          have hpq : ¬ k = q := hk
          simp [addCoord, alookup, hk, hpq]
        · simp [addCoord, alookup, hk, hp, ih]

lemma pcStep_occ (acc : List (List Char × List Coord) × List (List Char × Nat))
    (r : Rw5Record) (p : List Char) :
    alookup (pcStep acc r).2 p =
      if contributes p r then some ((alookup acc.2 p).getD 0 + 1) else alookup acc.2 p := by
  rcases hr : r.payload with _ | _ | ⟨nm, dt, tm⟩ | ⟨ad, un, sf, ec, au, eo⟩ |
    ⟨op, bp, bsv, bcv⟩ | ⟨hiv, hrv⟩ | ⟨op, nv, ev, elv⟩ | ⟨arv, zev, sdv⟩ |
    ⟨pn, nv, ev, elv, res, rds⟩ | ⟨op, fp, arv, zev, sdv⟩ |
    ⟨pn, la, ln, elr, nv, ev, elv, fx, h1, v1, ag, ne⟩ <;>
    simp only [pcStep, hr, contributes, isGpsAt, isSpAt, isSsAt]
  · simp
  · simp
  · simp
  · simp
  · simp
  · simp
  · simp
  · simp
  · -- store point
    cases res with
    | false =>
        by_cases hp : p = pn
        · simp [alookup_bumpOcc, hp]
        · simp [alookup_bumpOcc, hp, Ne.symm hp]
    | true => simp
  · -- sideshot
    by_cases hp : p = fp
    · simp [alookup_bumpOcc, hp]
    · simp [alookup_bumpOcc, hp, Ne.symm hp]
  · -- gps
    by_cases hp : p = pn
    · simp [alookup_bumpOcc, hp]
    · simp [alookup_bumpOcc, hp, Ne.symm hp]

lemma pcStep_coords (acc : List (List Char × List Coord) × List (List Char × Nat))
    (r : Rw5Record) (p : List Char) :
    alookup (pcStep acc r).1 p =
      match coordOf p r with
      | some c => some ((alookup acc.1 p).getD [] ++ [c])
      | none => alookup acc.1 p := by
  rcases hr : r.payload with _ | _ | ⟨nm, dt, tm⟩ | ⟨ad, un, sf, ec, au, eo⟩ |
    ⟨op, bp, bsv, bcv⟩ | ⟨hiv, hrv⟩ | ⟨op, nv, ev, elv⟩ | ⟨arv, zev, sdv⟩ |
    ⟨pn, nv, ev, elv, res, rds⟩ | ⟨op, fp, arv, zev, sdv⟩ |
    ⟨pn, la, ln, elr, nv, ev, elv, fx, h1, v1, ag, ne⟩
  · simp [pcStep, hr, coordOf]
  · simp [pcStep, hr, coordOf]
  · simp [pcStep, hr, coordOf]
  · simp [pcStep, hr, coordOf]
  · simp [pcStep, hr, coordOf]
  · simp [pcStep, hr, coordOf]
  · simp [pcStep, hr, coordOf]
  · simp [pcStep, hr, coordOf]
  · -- store point
    cases res with
    | false =>
        by_cases hp : p = pn
        · simp [pcStep, hr, coordOf, alookup_addCoord, hp]
        · simp [pcStep, hr, coordOf, alookup_addCoord, hp, Ne.symm hp]
    | true => simp [pcStep, hr, coordOf]
  · -- sideshot
    simp [pcStep, hr, coordOf]
  · -- gps
    by_cases hp : p = pn
    · simp [pcStep, hr, coordOf, alookup_addCoord, hp]
    · simp [pcStep, hr, coordOf, alookup_addCoord, hp, Ne.symm hp]

lemma occ_fold (p : List Char) :
    ∀ (recs : List Rw5Record) (acc : List (List Char × List Coord) × List (List Char × Nat)),
    alookup (recs.foldl pcStep acc).2 p =
      (match alookup acc.2 p with
       | some m => some (m + recs.countP (contributes p))
       | none =>
           if recs.countP (contributes p) = 0 then none
           else some (recs.countP (contributes p))) := by
  intro recs
  induction recs with
  | nil => intro acc; rcases h : alookup acc.2 p with _ | m <;> simp [h]
  | cons r rest ih =>
      intro acc
      have hstep := pcStep_occ acc r p
      rw [List.foldl_cons, ih (pcStep acc r), List.countP_cons]
      by_cases hc : contributes p r
      · rw [hstep]
        simp only [hc, if_true]
        rcases h : alookup acc.2 p with _ | m <;> simp [h, hc] <;> omega
      · rw [hstep]
        simp only [hc, if_false]
        rcases h : alookup acc.2 p with _ | m <;> simp [h, hc]

lemma coords_fold (p : List Char) :
    ∀ (recs : List Rw5Record) (acc : List (List Char × List Coord) × List (List Char × Nat)),
    alookup (recs.foldl pcStep acc).1 p =
      (match alookup acc.1 p with
       | some m => some (m ++ recs.filterMap (coordOf p))
       | none =>
           if recs.filterMap (coordOf p) = [] then none
           else some (recs.filterMap (coordOf p))) := by
  intro recs
  induction recs with
  | nil => intro acc; rcases h : alookup acc.1 p with _ | m <;> simp [h]
  | cons r rest ih =>
      intro acc
      have hstep := pcStep_coords acc r p
      rw [List.foldl_cons, ih (pcStep acc r), List.filterMap_cons]
      rcases hc : coordOf p r with _ | c <;>
        rw [hstep, hc] <;>
        rcases h : alookup acc.1 p with _ | m <;> simp [h]

lemma countP_contributes_split (p : List Char) (recs : List Rw5Record) :
    recs.countP (contributes p) =
      recs.countP (isGpsAt p) + recs.countP (isSpAt p) + recs.countP (isSsAt p) := by
  induction recs with
  | nil => simp
  | cons r rest ih =>
      have hsplit : ∀ b1 b2 b3 : Bool,
          ((if b1 || b2 || b3 then 1 else 0) : Nat) =
            (if b1 then 1 else 0) + (if b2 then 1 else 0) + (if b3 then 1 else 0) ∨
          (b1 || b2 || b3) = true ∧ True := by decide
      rcases hr : r.payload with _ | _ | ⟨nm, dt, tm⟩ | ⟨ad, un, sf, ec, au, eo⟩ |
        ⟨op, bp, bsv, bcv⟩ | ⟨hiv, hrv⟩ | ⟨op, nv, ev, elv⟩ | ⟨arv, zev, sdv⟩ |
        ⟨pn, nv, ev, elv, res, rds⟩ | ⟨op, fp, arv, zev, sdv⟩ |
        ⟨pn, la, ln, elr, nv, ev, elv, fx, h1, v1, ag, ne⟩ <;>
        simp [List.countP_cons, contributes, isGpsAt, isSpAt, isSsAt, hr, ih] <;>
        split_ifs <;> omega

/-- C7: the aggregator mappings, characterized.  For every point name p,
the occurrence count stored for p is exactly the number of GPS records
named p plus non-resection store points named p plus sideshots whose
foresight is p (and p is absent from the table exactly when that total
is zero); and the coordinate list stored for p is exactly the processed
coordinates of the GPS and non-resection store-point records named p, in
record order, sideshots contributing none (absent exactly when there
are none). -/
theorem c7_aggregator_characterization (recs : List Rw5Record) (p : List Char) :
    alookup (processCoordinates recs).2 p =
      (if recs.countP (isGpsAt p) + recs.countP (isSpAt p) + recs.countP (isSsAt p) = 0
       then none
       else some (recs.countP (isGpsAt p) + recs.countP (isSpAt p) +
         recs.countP (isSsAt p))) ∧
    alookup (processCoordinates recs).1 p =
      (if recs.filterMap (coordOf p) = [] then none
       else some (recs.filterMap (coordOf p))) := by
  constructor
  · have h := occ_fold p recs ([], [])
    rw [processCoordinates, h]
    simp [alookup, countP_contributes_split]
  · have h := coords_fold p recs ([], [])
    rw [processCoordinates, h]
    simp [alookup]

/-- C8: point-name substitution.  A sideshot or GPS line without the
--CP/ marker is left unchanged; one with the marker has every occurrence
of its original point name (the FP field for sideshots, the PN field for
GPS) replaced by the whitespace-delimited token following CP/; and
parse_instruction performs this substitution before handing the stripped
line to the sideshot or GPS variant parser, so the renamed point is what
the record (and hence the aggregator and encoder) sees. -/
theorem c8_point_name_substitution (line : List Char) (index : Nat)
    (notes : List (List Char)) (ms : MachineState) :
    (¬ containsSub line substMarker →
      substitutePointName tokSS line = line ∧
      substitutePointName tokGPS line = line) ∧
    (containsSub line substMarker →
      substitutePointName tokSS line =
        pyReplace line (originalPointName tokSS line) (substNewName line) ∧
      substitutePointName tokGPS line =
        pyReplace line (originalPointName tokGPS line) (substNewName line)) ∧
    (lineCode line = tokSS →
      parseInstruction index line notes ms =
        sideshotFromString index tokSS (pyStrip (substitutePointName tokSS line)) ms notes) ∧
    (lineCode line = tokGPS →
      parseInstruction index line notes ms =
        gpsFromString index tokGPS (pyStrip (substitutePointName tokGPS line)) ms notes) := by
  refine ⟨?_, ?_, ?_, ?_⟩
  · intro h
    constructor <;> simp [substitutePointName, h]
  · intro h
    constructor <;>
      simp [substitutePointName, originalPointName, substNewName, h,
        (by decide : ¬ tokSS = tokGPS)]
  · intro h
    simp only [parseInstruction]
    rw [h]
    rw [if_neg (by decide), if_neg (by decide), if_neg (by decide), if_neg (by decide),
        if_neg (by decide), if_neg (by decide), if_neg (by decide), if_neg (by decide),
        if_pos rfl]
  · intro h
    simp only [parseInstruction]
    rw [h]
    rw [if_neg (by decide), if_neg (by decide), if_neg (by decide), if_neg (by decide),
        if_neg (by decide), if_neg (by decide), if_neg (by decide), if_neg (by decide),
        if_neg (by decide), if_pos rfl]

/-- The concrete sideshot line with a --CP/ marker used by the C8
witness. -/
def c8line : List Char := "SS,OP1,FP2,AR10.0000,ZE90.0000,SD5.000000,--CP/CP9\n".data

/-- C8, witness: the marker line is substituted (FP value 2 replaced by
CP9 everywhere) and parse_instruction parses the substituted, stripped
line. -/
theorem c8_point_name_substitution_witness :
    containsSub c8line substMarker = true ∧
    substitutePointName tokSS c8line =
      pyReplace c8line (originalPointName tokSS c8line) (substNewName c8line) ∧
    lineCode c8line = tokSS ∧
    parseInstruction 0 c8line [] msInit =
      sideshotFromString 0 tokSS (pyStrip (substitutePointName tokSS c8line)) msInit [] :=
  ⟨rfl, ((c8_point_name_substitution c8line 0 [] msInit).2.1 (by decide)).1,
   rfl, (c8_point_name_substitution c8line 0 [] msInit).2.2.1 rfl⟩

lemma baseFromString_stores (i : Nat) (rt l : List Char) (ms : MachineState)
    (ns : List (List Char)) (r : Rw5Record) (ms2 : MachineState)
    (h : baseFromString i rt l ms ns = some (r, ms2)) : r.machineState = ms2 := by
  unfold baseFromString at h
  try dsimp only at h
  repeat' split at h
  all_goals
    first
      | exact Option.noConfusion h
      | (injection h with h1; injection h1 with ha hb; subst ha; subst hb; rfl)

lemma noteFromString_stores (i : Nat) (rt l : List Char) (ms : MachineState)
    (ns : List (List Char)) (r : Rw5Record) (ms2 : MachineState)
    (h : noteFromString i rt l ms ns = some (r, ms2)) : r.machineState = ms2 := by
  unfold noteFromString at h
  try dsimp only at h
  repeat' split at h
  all_goals
    first
      | exact Option.noConfusion h
      | (injection h with h1; injection h1 with ha hb; subst ha; subst hb; rfl)

lemma jobFromString_stores (i : Nat) (rt l : List Char) (ms : MachineState)
    (ns : List (List Char)) (r : Rw5Record) (ms2 : MachineState)
    (h : jobFromString i rt l ms ns = some (r, ms2)) : r.machineState = ms2 := by
  unfold jobFromString at h
  try dsimp only at h
  repeat' split at h
  all_goals
    first
      | exact Option.noConfusion h
      | (injection h with h1; injection h1 with ha hb; subst ha; subst hb; rfl)

lemma backsightFromString_stores (i : Nat) (rt l : List Char) (ms : MachineState)
    (ns : List (List Char)) (r : Rw5Record) (ms2 : MachineState)
    (h : backsightFromString i rt l ms ns = some (r, ms2)) : r.machineState = ms2 := by
  unfold backsightFromString at h
  try dsimp only at h
  repeat' split at h
  all_goals
    first
      | exact Option.noConfusion h
      | (injection h with h1; injection h1 with ha hb; subst ha; subst hb; rfl)

lemma lineOfSightFromString_stores (i : Nat) (rt l : List Char) (ms : MachineState)
    (ns : List (List Char)) (r : Rw5Record) (ms2 : MachineState)
    (h : lineOfSightFromString i rt l ms ns = some (r, ms2)) : r.machineState = ms2 := by
  unfold lineOfSightFromString at h
  try dsimp only at h
  repeat' split at h
  all_goals
    first
      | exact Option.noConfusion h
      | (injection h with h1; injection h1 with ha hb; subst ha; subst hb; rfl)

lemma modeSetupFromString_stores (i : Nat) (rt l : List Char) (ms : MachineState)
    (ns : List (List Char)) (r : Rw5Record) (ms2 : MachineState)
    (h : modeSetupFromString i rt l ms ns = some (r, ms2)) : r.machineState = ms2 := by
  unfold modeSetupFromString at h
  try dsimp only at h
  repeat' split at h
  all_goals
    first
      | exact Option.noConfusion h
      | (injection h with h1; injection h1 with ha hb; subst ha; subst hb; rfl)

lemma occupyFromString_stores (i : Nat) (rt l : List Char) (ms : MachineState)
    (ns : List (List Char)) (r : Rw5Record) (ms2 : MachineState)
    (h : occupyFromString i rt l ms ns = some (r, ms2)) : r.machineState = ms2 := by
  unfold occupyFromString at h
  try dsimp only at h
  repeat' split at h
  all_goals
    first
      | exact Option.noConfusion h
      | (injection h with h1; injection h1 with ha hb; subst ha; subst hb; rfl)

lemma offCenterFromString_stores (i : Nat) (rt l : List Char) (ms : MachineState)
    (ns : List (List Char)) (r : Rw5Record) (ms2 : MachineState)
    (h : offCenterFromString i rt l ms ns = some (r, ms2)) : r.machineState = ms2 := by
  unfold offCenterFromString at h
  try dsimp only at h
  repeat' split at h
  all_goals
    first
      | exact Option.noConfusion h
      | (injection h with h1; injection h1 with ha hb; subst ha; subst hb; rfl)

lemma storePointFromString_stores (i : Nat) (rt l : List Char) (ms : MachineState)
    (ns : List (List Char)) (r : Rw5Record) (ms2 : MachineState)
    (h : storePointFromString i rt l ms ns = some (r, ms2)) : r.machineState = ms2 := by
  unfold storePointFromString at h
  try dsimp only at h
  repeat' split at h
  all_goals
    first
      | exact Option.noConfusion h
      | (injection h with h1; injection h1 with ha hb; subst ha; subst hb; rfl)

lemma sideshotFromString_stores (i : Nat) (rt l : List Char) (ms : MachineState)
    (ns : List (List Char)) (r : Rw5Record) (ms2 : MachineState)
    (h : sideshotFromString i rt l ms ns = some (r, ms2)) : r.machineState = ms2 := by
  unfold sideshotFromString at h
  try dsimp only at h
  repeat' split at h
  all_goals
    first
      | exact Option.noConfusion h
      | (injection h with h1; injection h1 with ha hb; subst ha; subst hb; rfl)

set_option maxHeartbeats 1600000 in
lemma gpsFromString_stores (i : Nat) (rt l : List Char) (ms : MachineState)
    (ns : List (List Char)) (r : Rw5Record) (ms2 : MachineState)
    (h : gpsFromString i rt l ms ns = some (r, ms2)) : r.machineState = ms2 := by
  unfold gpsFromString at h
  try dsimp only at h
  repeat' split at h
  all_goals
    first
      | exact Option.noConfusion h
      | (injection h with h1; injection h1 with ha hb; subst ha; subst hb; rfl)

lemma parseInstruction_stores_state
    (index : Nat) (line : List Char) (notes : List (List Char)) (ms : MachineState)
    (r : Rw5Record) (ms2 : MachineState)
    (h : parseInstruction index line notes ms = some (r, ms2)) :
    r.machineState = ms2 := by
  unfold parseInstruction at h
  by_cases h1 : lineCode line = ddTok
  · rw [if_pos h1] at h; exact noteFromString_stores _ _ _ _ _ _ _ h
  rw [if_neg h1] at h
  by_cases h2 : lineCode line = tokBK
  · rw [if_pos h2] at h; exact backsightFromString_stores _ _ _ _ _ _ _ h
  rw [if_neg h2] at h
  by_cases h3 : lineCode line = tokJB
  · rw [if_pos h3] at h; exact jobFromString_stores _ _ _ _ _ _ _ h
  rw [if_neg h3] at h
  by_cases h4 : lineCode line = tokLS
  · rw [if_pos h4] at h; exact lineOfSightFromString_stores _ _ _ _ _ _ _ h
  rw [if_neg h4] at h
  by_cases h5 : lineCode line = tokMO
  · rw [if_pos h5] at h; exact modeSetupFromString_stores _ _ _ _ _ _ _ h
  rw [if_neg h5] at h
  by_cases h6 : lineCode line = tokOC
  · rw [if_pos h6] at h; exact occupyFromString_stores _ _ _ _ _ _ _ h
  rw [if_neg h6] at h
  by_cases h7 : lineCode line = tokOF
  · rw [if_pos h7] at h; exact offCenterFromString_stores _ _ _ _ _ _ _ h
  rw [if_neg h7] at h
  by_cases h8 : lineCode line = tokSP
  · rw [if_pos h8] at h; exact storePointFromString_stores _ _ _ _ _ _ _ h
  rw [if_neg h8] at h
  by_cases h9 : lineCode line = tokSS
  · rw [if_pos h9] at h; exact sideshotFromString_stores _ _ _ _ _ _ _ h
  rw [if_neg h9] at h
  by_cases h10 : lineCode line = tokGPS
  · rw [if_pos h10] at h; exact gpsFromString_stores _ _ _ _ _ _ _ h
  rw [if_neg h10] at h
  exact baseFromString_stores _ _ _ _ _ _ _ h

/-- C9: machine-state snapshots.  First: in any successful parse run,
the snapshot stored on the i-th record is exactly the threaded state
after parsing entries 0..i, a function of that prefix alone — so no
mutation made while parsing later records can change it (the value-level
statement of the deep-copy rule), and it already includes the record's
own side effect.  Second: for a Backsight line that effect is explicit —
the stored snapshot's backsight point and angle are the BP field and the
parsed BS angle of that very line. -/
theorem c9_snapshot_is_state_after_own_parse :
    (∀ (es : List (Nat × List Char × List (List Char))) (ms : MachineState)
        (rs : List Rw5Record) (msf : MachineState),
      parseEntries es ms = some (rs, msf) →
      ∀ i, i < rs.length →
        some ((rs.getD i dummyRecord).machineState) =
          (parseEntries (es.take (i + 1)) ms).map Prod.snd) ∧
    (∀ (index : Nat) (line : List Char) (notes : List (List Char)) (ms : MachineState)
        (r : Rw5Record) (ms2 : MachineState),
      lineCode line = tokBK →
      parseInstruction index line notes ms = some (r, ms2) →
      r.machineState = ms2 ∧
      r.machineState.backsight_coord = some (getParam (pyStrip line) tokBP) ∧
      r.machineState.backsight_angle = dmsFromStr (getParam (pyStrip line) tokBS)) := by
  constructor
  · intro es
    induction es with
    | nil =>
        intro ms rs msf h i hi
        injection h with h1
        injection h1 with ha hb
        subst ha
        simp at hi
    | cons e rest ih =>
        intro ms rs msf h i hi
        obtain ⟨ei, el, en⟩ := e
        unfold parseEntries at h
        rcases hpi : parseInstruction ei el en ms with _ | ⟨r, ms'⟩ <;> rw [hpi] at h
        · cases h
        · dsimp only at h
          rcases hpe : parseEntries rest ms' with _ | ⟨rs', msf'⟩ <;> rw [hpe] at h
          · cases h
          · dsimp only at h
            injection h with h1
            injection h1 with ha hb
            subst ha
            cases i with
            | zero =>
                have hst := parseInstruction_stores_state ei el en ms r ms' hpi
                simp [parseEntries, hpi, hst]
            | succ j =>
                have hj : j < rs'.length := by simpa using hi
                have hih := ih ms' rs' msf' hpe j hj
                rcases hq : parseEntries (rest.take (j + 1)) ms' with _ | ⟨rsq, msq⟩ <;>
                  rw [hq] at hih
                · cases hih
                · simp only [List.take_succ_cons, List.getD_cons_succ]
                  rw [show parseEntries ((ei, el, en) :: rest.take (j + 1)) ms =
                        some (r :: rsq, msq) by
                      unfold parseEntries
                      rw [hpi]
                      dsimp only
                      rw [hq]]
                  simpa using hih
  · intro index line notes ms r ms2 hcode h
    simp only [parseInstruction] at h
    rw [hcode, if_neg (by decide), if_pos rfl] at h
    simp only [backsightFromString] at h
    split at h
    · exact Option.noConfusion h
    · rcases hbs : dmsFromStr (getParam (pyStrip line) tokBS) with _ | bs <;> rw [hbs] at h
      · exact Option.noConfusion h
      · rcases hbc : dmsFromStr (getParam (pyStrip line) tokBC) with _ | bc <;> rw [hbc] at h
        · exact Option.noConfusion h
        · dsimp only at h
          injection h with h1
          injection h1 with ha hb
          subst ha
          subst hb
          exact ⟨rfl, rfl, rfl⟩

/-- The Backsight line of the concrete C9 run. -/
def c9bkline : List Char := "BK,OP1,BP2,BS315.0000,BC0.0044".data

/-- The two-entry run (a Backsight then a sideshot) of the C9 witness. -/
def c9entries : List (Nat × List Char × List (List Char)) :=
  [(0, c9bkline, []),
   (1, "SS,OP1,FP3,AR10.0000,ZE90.0000,SD5.000000".data, [])]

/-- Records of the C9 run. -/
def c9rs : List Rw5Record := ((parseEntries c9entries msInit).map Prod.fst).getD []

/-- Final machine state of the C9 run. -/
def c9msf : MachineState := ((parseEntries c9entries msInit).map Prod.snd).getD msInit

/-- Parse result of the Backsight line alone. -/
def c9bk : Rw5Record × MachineState :=
  (parseInstruction 0 c9bkline [] msInit).getD (dummyRecord, msInit)

/-- C9, witness: on the concrete run the second record's snapshot equals
the threaded state after its own parse, and the Backsight record's
snapshot carries its own backsight point and angle. -/
theorem c9_snapshot_is_state_after_own_parse_witness :
    (1 < c9rs.length ∧
     some ((c9rs.getD 1 dummyRecord).machineState) =
       (parseEntries (c9entries.take 2) msInit).map Prod.snd) ∧
    ((c9bk.1).machineState = c9bk.2 ∧
     (c9bk.1).machineState.backsight_coord = some (getParam (pyStrip c9bkline) tokBP) ∧
     (c9bk.1).machineState.backsight_angle = dmsFromStr (getParam (pyStrip c9bkline) tokBS)) :=
  ⟨⟨by decide,
    c9_snapshot_is_state_after_own_parse.1 c9entries msInit c9rs c9msf rfl 1 (by decide)⟩,
   c9_snapshot_is_state_after_own_parse.2 0 c9bkline [] msInit c9bk.1 c9bk.2 rfl rfl⟩
